import Mathlib

/-!
Verification development for the xbase daemon core: the broadcast hub,
the watch-triggered build scheduler, and the compile-log parser.
Rust sources are embedded shallowly as Lean functions; external
collaborators (the process-stream crate, serde, the filesystem) are
modelled at their interfaces.
-/

/-! ## Compile log parser (src/compile.rs) -/

/-- Kernel-executable rendering of Rust `str::starts_with`, working on the
character data of the string. -/
def strStartsWith (s p : String) : Bool := p.data.isPrefixOf s.data

/-- Kernel-executable rendering of Rust `str::ends_with`, working on the
character data of the string. -/
def strEndsWith (s p : String) : Bool := p.data.isSuffixOf s.data

/-- A structured compile invocation extracted from one recognized block of a
build log.  Fields follow the data model: the extracted source files, the
full argument vector of the block, and the optional index-store path. -/
structure CompileCommand where
  files : List String
  arguments : List String
  index_store_path : Option String
deriving DecidableEq, Repr

/-- Modelled from the spec: `matches_compile_swift_sources`
(src/util/regex.rs is not part of the sources).  The fixed textual pattern
classifying a block-marker line as a swift-module compile block; the marker
line of the worked example, `=== COMPILE /src/a.swift ===`, matches, while
`=== BUILD TARGET App ===` does not. -/
def matches_compile_swift_sources (line : String) : Bool :=
  strStartsWith line "=== COMPILE " && strEndsWith line ".swift ==="

/-- Modelled from the spec: `CompileCommand::swift_module`
(src/compile/command.rs is not part of the sources).  For a matched block it
extracts, from the lines following the marker (up to the next block marker),
the list of source files, the full argument vector, and, if present, the
index-store path introduced by the tag `<index-store-path> `. -/
def CompileCommand.swift_module (lines : List String) (cursor : Nat) :
    Option CompileCommand :=
  let block := (lines.drop cursor).takeWhile (fun l => !strStartsWith l "===")
  let isp := (block.find? (fun l => strStartsWith l "<index-store-path> ")).map
    (fun l => l.drop 19)
  let files := block.filter (fun l => strEndsWith l ".swift")
  if files.isEmpty then none
  else some { files := files, arguments := block, index_store_path := isp }

/-- Ordered sequence of compile invocations (struct `CompileCommands`). -/
structure CompileCommands where
  commands : List CompileCommand
deriving DecidableEq, Repr

/-- Loop body of `CompileCommands::from_logs`: walks the lines with a cursor
that is incremented before each line is examined (so a marker at 0-based
index `i` is handed to `swift_module` with cursor `i + 1`); lines not
starting with `===` are skipped, marker lines matching the swift-module
pattern contribute a command when extraction succeeds. -/
def CompileCommands.fromLogsAux (all : List String) :
    List String → Nat → List CompileCommand
  | [], _ => []
  | line :: rest, cursor =>
    if strStartsWith line "===" then
      if matches_compile_swift_sources line then
        match CompileCommand.swift_module all (cursor + 1) with
        | some command =>
            command :: CompileCommands.fromLogsAux all rest (cursor + 1)
        | none => CompileCommands.fromLogsAux all rest (cursor + 1)
      else CompileCommands.fromLogsAux all rest (cursor + 1)
    else CompileCommands.fromLogsAux all rest (cursor + 1)

/-- `CompileCommands::from_logs`. -/
def CompileCommands.from_logs (lines : List String) : CompileCommands :=
  ⟨CompileCommands.fromLogsAux lines lines 0⟩

/-! ## Broadcast hub (src/broadcast/mod.rs) -/

/-- Item of a consumed process's output stream, at the interface of the
process-stream collaborator (§4.3): stdout/stderr lines followed by one
terminal record carrying the process's success status. -/
inductive ProcessItem
  | out (line : String)
  | exit (success : Bool)
deriving DecidableEq, Repr

/-- `is_success` of a stream item: `some` exactly on the terminal record. -/
def ProcessItem.is_success : ProcessItem → Option Bool
  | .out _ => none
  | .exit b => some b

/-- Output stream of a process that runs to natural termination: its output
lines followed by the terminal record (§4.3: a lazy, finite sequence of
output records and a terminal completion signal). -/
def processStream (lines : List String) (success : Bool) : List ProcessItem :=
  lines.map ProcessItem.out ++ [ProcessItem.exit success]

/-- Observable effects of the task spawned by `Broadcast::consume`: the
booleans sent on the single-use status channel, the output records forwarded
to the hub channel (`tx.send(output.into())`), and whether the subprocess
aborter was notified (`abort.notify_one()`). -/
structure ConsumeResult where
  statuses : List Bool
  forwarded : List ProcessItem
  aborted : Bool
deriving DecidableEq, Repr

/-- Whether a hub cancellation requested before suspension point `k` is
observed at suspension point `n`.  Cancellation is cooperative, checked at
each suspension point (§5), and the notified signal stays pending until
observed, so it is observed at every suspension point from `k` on. -/
def cancelObserved (cancelAt : Option Nat) (n : Nat) : Bool :=
  match cancelAt with
  | none => false
  | some k => decide (k ≤ n)

/-- Select loop of the task spawned by `Broadcast::consume`, one recursion
step per loop iteration, `n` numbering the suspension points.  When the
cancellation branch wins, the subprocess aborter is notified, `false` is sent
on the status channel and the loop breaks; otherwise the next stream item is
handled: the terminal record sends its success status, any other record is
forwarded to the hub channel, and the end of the stream breaks the loop. -/
def consumeLoop (cancelAt : Option Nat) : Nat → List ProcessItem → ConsumeResult
  | n, [] =>
    if cancelObserved cancelAt n then ⟨[false], [], true⟩ else ⟨[], [], false⟩
  | n, item :: rest =>
    if cancelObserved cancelAt n then ⟨[false], [], true⟩
    else
      let r := consumeLoop cancelAt (n + 1) rest
      match item.is_success with
      | some b => ⟨b :: r.statuses, r.forwarded, r.aborted⟩
      | none => ⟨r.statuses, item :: r.forwarded, r.aborted⟩

/-- `Broadcast::consume`, viewed through the effects of its spawned task on a
given stream, with `cancelAt` the suspension point (if any) at which the
hub's cancellation signal becomes pending. -/
def Broadcast.consume (cancelAt : Option Nat) (items : List ProcessItem) :
    ConsumeResult :=
  consumeLoop cancelAt 0 items

/-- The relay loop `Broadcast::start_messages_handler` dequeues Messages from
the hub channel in FIFO production order and spawns one writer task per
message: task `i` carries message `i`.  The tasks serialize on the client-set
lock; the runtime constrains their lock-acquisition order only to be some
permutation of the spawned tasks. -/
def relayTasks {α : Type} (msgs : List α) : List (Nat × α) := msgs.enum

/-- The sequence of messages a client attached for the whole run receives
when the spawned writer tasks acquire the client-set lock in the order
`sched` (task `i` writes message `i` to every attached client). -/
def clientReceived {α : Type} (msgs : List α) (sched : List Nat) : List α :=
  sched.filterMap (fun i => msgs[i]?)

/-- Modelled from the spec: `PathExt::unique_name` (src/util/extensions.rs is
not part of the sources); a socket name derived deterministically from the
project root path (§4.1, §6). -/
def unique_name (root : String) : String :=
  String.mk (root.data.map (fun c => if c == '/' then '_' else c))

/-- The socket address `Broadcast::new` derives for a project root:
`Broadcast::ROOT` joined with the unique name and the `.socket` suffix. -/
def Broadcast.socketAddress (root : String) : String :=
  "/private/tmp/xbase/" ++ unique_name root ++ ".socket"

/-- Effect of `tokio::fs::remove_file` on the set of existing paths. -/
def removeFile (fs : List String) (path : String) : List String :=
  fs.filter (fun p => p != path)

/-- Binding a unix listener (`UnixListener::bind`): fails when a file already
exists at the address, otherwise creates the socket file. -/
def bindSocket (fs : List String) (address : String) :
    Except Unit (List String) :=
  if address ∈ fs then .error () else .ok (address :: fs)

/-- What the accept loop of `Broadcast::start_server` does when the hub's
abort signal fires: it removes the socket file and stops. -/
def Broadcast.serverOnAbort (address : String) (fs : List String) :
    List String :=
  removeFile fs address

/-- Filesystem effect of `Broadcast::new` on the set of existing paths: the
address is derived from the root; a stale endpoint at that address is removed
first; then the listener is bound at the address. -/
def Broadcast.new (root : String) (fs : List String) :
    Except Unit (List String) :=
  let address := Broadcast.socketAddress root
  let fs1 := if address ∈ fs then removeFile fs address else fs
  bindSocket fs1 address

/-! ## Watch-triggered build scheduler (daemon/src/build.rs) -/

/-- Modelled from the spec: the filesystem `Event` interface (the
daemon/src/watch module is not part of the sources).  §3 gives the data model
as path, kind and an observed-before flag; `should_trigger` consults an event
only through the predicates below, so an event is modelled by their truth
values: the four kind predicates, whether the event's path currently exists,
and whether the event has already been observed (seen). -/
structure Event where
  is_content_update_event : Bool
  is_rename_event : Bool
  is_create_event : Bool
  is_remove_event : Bool
  path_exists : Bool
  is_seen : Bool
deriving DecidableEq, Repr

/-- `<BuildRequest as Watchable>::should_trigger` (daemon/src/build.rs). -/
def BuildRequest.should_trigger (event : Event) : Bool :=
  event.is_content_update_event || event.is_rename_event ||
    event.is_create_event || event.is_remove_event ||
    !(event.path_exists || event.is_seen)

/-- A message handed to the broadcast hub by the notify/log macros
(`notify_info!`, `notify_error!`, `log_info!`, `log_error!`). -/
inductive Emission
  | notifyInfo (text : String)
  | notifyError (text : String)
  | logInfo (text : String)
  | logError (text : String)
deriving DecidableEq, Repr

/-- Whether an emission is an error notification. -/
def Emission.isNotifyError : Emission → Bool
  | .notifyError _ => true
  | _ => false

/-- Whether an emission is an info notification. -/
def Emission.isNotifyInfo : Emission → Bool
  | .notifyInfo _ => true
  | _ => false

/-- Whether an emission is an error log message. -/
def Emission.isLogError : Emission → Bool
  | .logError _ => true
  | _ => false

/-- `<BuildRequest as Watchable>::trigger` (daemon/src/build.rs), viewed
through the messages it hands to the hub.  `is_once` is `self.ops.is_once()`;
`args` is the argument vector returned by `project.build`; `outcome` is the
value received from the returned outcome receiver (`recv()` yields `None`
when the channel closed, which `unwrap_or_default` maps to `false`); `regs`
is the scheduler's registration set, which the body never touches and which
is therefore passed through unchanged.  The hub channel is unbounded and its
receiver lives for the hub's lifetime, so each notify/log macro returns `Ok`
and `trigger` returns `Ok` carrying the emitted messages. -/
def BuildRequest.trigger (is_once : Bool) (target : String)
    (args : List String) (outcome : Option Bool) (regs : List String) :
    Except Unit (List Emission × List String) :=
  let pre :=
    if is_once then [Emission.notifyInfo ("[" ++ target ++ "] Building")]
    else []
  if !(outcome.getD false) then
    let verb := if is_once then "building" else "Rebuilding"
    .ok (pre ++
      [Emission.notifyError ("[" ++ target ++ "] " ++ verb ++
        " Failed, checkout logs"),
       Emission.logError ("[" ++ target ++ "] ran args " ++
        String.intercalate " " args)], regs)
  else
    .ok (pre ++ [Emission.notifyInfo ("[" ++ target ++ "] Built")], regs)

/-! ## Compile database update (daemon/src/project/xcodegen.rs) -/

/-- The daemon error raised when the compile subprocess fails
(`Error::Build`). -/
inductive DaemonError
  | build (target : String)
deriving DecidableEq, Repr

/-- Effect of `tokio::fs::write` on a filesystem of path-content pairs: the
file at `path` is created or fully overwritten. -/
def writeFile (fs : List (String × String)) (path contents : String) :
    List (String × String) :=
  (path, contents) :: fs.filter (fun p => p.1 != path)

/-- Contents of the file at `path`, if it exists. -/
def readFile (fs : List (String × String)) (path : String) : Option String :=
  (fs.find? (fun p => p.1 == path)).map (fun p => p.2)

/-- `<XCodeGenProject as ProjectCompile>::update_compile_database`
(daemon/src/project/xcodegen.rs), viewed through its result, its filesystem
effect and its emissions.  `success` is the outcome received from
`broadcast.consume` on the xclog subprocess; `json` is the serde
pretty-printing of the collected compilation database (xclog and serde are
external collaborators); `sep` is the separator line.  On failure an error
notification is emitted and `Error::Build` is returned with the filesystem
untouched; on success the pretty-printed JSON is written to `.compile` under
the project root. -/
def update_compile_database (name root : String) (success : Bool)
    (json sep : String) (fs : List (String × String)) :
    Except DaemonError Unit × List (String × String) × List Emission :=
  let pre := [Emission.notifyInfo ("[" ++ name ++ "] Compiling"),
              Emission.logInfo sep,
              Emission.logInfo ("[" ++ name ++ "] Compiling"),
              Emission.logInfo sep]
  if !success then
    (.error (DaemonError.build name), fs,
      pre ++ [Emission.notifyError
        ("Fail to generated compile commands for " ++ name)])
  else
    (.ok (), writeFile fs (root ++ "/.compile") json,
      pre ++ [Emission.notifyInfo ("[" ++ name ++ "] Compiled"),
              Emission.logInfo ("[" ++ name ++ "] Compiled")])

/-! ## Server response (src/server/response.rs) -/

/-- Server `Response`, generic over the serialized value type and the error
type; both fields default to `None` (`Response::default`). -/
structure Response (V E : Type) where
  data : Option V := none
  error : Option E := none

/-- `Response::new`: starts from the default response and fills exactly the
field matching the result, serializing the payload through the serde
collaborator `toValue`. -/
def Response.new {T V E : Type} (toValue : T → V) (v : Except E T) :
    Response V E :=
  match v with
  | .ok d => { data := some (toValue d), error := none }
  | .error e => { data := none, error := some e }

/-! ## Helper lemmas -/

/-- Running the consume loop with no cancellation over a naturally
terminating stream sends exactly the terminal status and forwards exactly the
output lines. -/
theorem consumeLoop_none (b : Bool) :
    ∀ (lines : List String) (n : Nat),
      consumeLoop none n (processStream lines b) =
        ⟨[b], lines.map ProcessItem.out, false⟩ := by
  intro lines
  induction lines with
  | nil =>
    intro n
    simp [processStream, consumeLoop, cancelObserved, ProcessItem.is_success]
  | cons l t ih =>
    intro n
    have hs : processStream (l :: t) b =
        ProcessItem.out l :: processStream t b := by
      simp [processStream]
    rw [hs, consumeLoop, ih (n + 1)]
    simp [cancelObserved, ProcessItem.is_success]

/-- Once the cancellation point has been reached, the consume loop notifies
the aborter and sends exactly `false`. -/
theorem consumeLoop_cancelled (K : Nat) :
    ∀ (items : List ProcessItem) (n : Nat), K ≤ n →
      consumeLoop (some K) n items = ⟨[false], [], true⟩ := by
  intro items n h
  cases items <;> simp [consumeLoop, cancelObserved, h]

/-- A cancellation that becomes pending while output lines are still being
streamed makes the consume loop forward the lines seen so far, then notify
the aborter and send exactly `false`. -/
theorem consumeLoop_cancel_stream (b : Bool) :
    ∀ (lines : List String) (K n : Nat), n ≤ K → K - n ≤ lines.length →
      consumeLoop (some K) n (processStream lines b) =
        ⟨[false], (lines.take (K - n)).map ProcessItem.out, true⟩ := by
  intro lines
  induction lines with
  | nil =>
    intro K n h1 h2
    have hKn : K = n := by
      simp at h2
      omega
    subst hKn
    simp [processStream, consumeLoop, cancelObserved]
  | cons l t ih =>
    intro K n h1 h2
    by_cases hK : K ≤ n
    · have hKn : K = n := Nat.le_antisymm hK h1
      subst hKn
      have h0 : K - K = 0 := Nat.sub_self K
      rw [h0]
      have hs : processStream (l :: t) b =
          ProcessItem.out l :: processStream t b := by
        simp [processStream]
      rw [hs, consumeLoop]
      simp [cancelObserved]
    · have hn : n < K := Nat.lt_of_not_le hK
      have hs : processStream (l :: t) b =
          ProcessItem.out l :: processStream t b := by
        simp [processStream]
      rw [hs, consumeLoop]
      have hco : cancelObserved (some K) n = false := by
        simp [cancelObserved]
        omega
      rw [hco]
      have ht : K - (n + 1) ≤ t.length := by
        simp at h2
        omega
      rw [ih K (n + 1) (by omega) ht]
      have htake : K - n = (K - (n + 1)) + 1 := by omega
      rw [htake]
      simp [ProcessItem.is_success, List.take_succ_cons]

/-- Writing the queued messages in spawn order delivers exactly the queued
messages. -/
theorem range_filterMap_getElem {α : Type} :
    ∀ msgs : List α,
      (List.range msgs.length).filterMap (fun i => msgs[i]?) = msgs := by
  intro msgs
  induction msgs with
  | nil => rfl
  | cons a t ih =>
    rw [List.length_cons, List.range_succ_eq_map]
    simp only [List.filterMap_cons, List.getElem?_cons_zero, List.filterMap_map]
    have hcomp : ((fun i => (a :: t)[i]?) ∘ Nat.succ) = (fun i => t[i]?) := by
      funext i
      simp
    rw [hcomp, ih]

/-- The second component of an entry of an enumerated list is an element of
the list. -/
theorem snd_mem_of_mem_enumFrom {α : Type} :
    ∀ (l : List α) (n : Nat) (p : Nat × α), p ∈ l.enumFrom n → p.2 ∈ l := by
  intro l
  induction l with
  | nil =>
    intro n p h
    simp [List.enumFrom] at h
  | cons a t ih =>
    intro n p h
    simp only [List.enumFrom, List.mem_cons] at h
    rcases h with h | h
    · subst h
      exact List.mem_cons_self _ _
    · exact List.mem_cons_of_mem _ (ih (n + 1) p h)

/-- The parser loop is the in-order scan of the enumerated lines: a marker
line at index `i` matching the swift-module pattern contributes the command
extracted at cursor `i + 1`, and nothing else contributes. -/
theorem fromLogsAux_eq_enumFrom (all : List String) :
    ∀ (rest : List String) (c : Nat),
      CompileCommands.fromLogsAux all rest c =
        (rest.enumFrom c).filterMap (fun p =>
          if strStartsWith p.2 "===" && matches_compile_swift_sources p.2 then
            CompileCommand.swift_module all (p.1 + 1)
          else none) := by
  intro rest
  induction rest with
  | nil => intro c; rfl
  | cons line t ih =>
    intro c
    rw [CompileCommands.fromLogsAux]
    simp only [List.enumFrom, List.filterMap_cons]
    by_cases h1 : strStartsWith line "==="
    · by_cases h2 : matches_compile_swift_sources line
      · cases hsm : CompileCommand.swift_module all (c + 1) with
        | none => simp [h1, h2, hsm, ih]
        | some command => simp [h1, h2, hsm, ih]
      · simp [h1, h2, ih]
    · simp [h1, ih]

/-! ## Claim theorems -/

/-- C1 (counterexample): with two messages queued on the hub channel and one
client attached throughout, the runtime may let the second spawned writer
task acquire the client-set lock before the first — a schedule that is a
permutation of the spawned tasks — and the client then receives the messages
out of production order. -/
theorem relay_order_counterexample :
    List.Perm [1, 0] (List.range (List.length [10, 20])) ∧
      clientReceived [10, 20] [1, 0] ≠ [10, 20] := by
  constructor
  · decide
  · decide

/-- C1 (amended): the relay loop dequeues messages and spawns writer tasks in
production order, and under every schedule (every permutation of the spawned
tasks) an attached client receives exactly the produced messages — but in the
produced order only under the schedule that lets the tasks acquire the
client-set lock in spawn order. -/
theorem relay_delivery_perm {α : Type} (msgs : List α) (sched : List Nat)
    (h : List.Perm sched (List.range msgs.length)) :
    List.Perm (clientReceived msgs sched) msgs ∧
      clientReceived msgs (List.range msgs.length) = msgs := by
  constructor
  · have hp := List.Perm.filterMap (fun i => msgs[i]?) h
    rw [range_filterMap_getElem msgs] at hp
    exact hp
  · exact range_filterMap_getElem msgs

/-- C1 (witness for the amended claim): concrete two-message run under the
reversed schedule. -/
theorem relay_delivery_perm_witness :
    List.Perm (clientReceived [10, 20] [1, 0]) [10, 20] ∧
      clientReceived [10, 20] (List.range (List.length [10, 20])) = [10, 20] :=
  relay_delivery_perm [10, 20] [1, 0] (by decide)

/-- C2: the status receiver returned by `Broadcast::consume` yields exactly
one boolean: the process's success status when the stream runs to natural
termination without cancellation, and `false` when the hub's cancellation
signal becomes pending while output lines are still being streamed. -/
theorem consume_single_outcome (lines : List String) (b : Bool) :
    (Broadcast.consume none (processStream lines b)).statuses = [b] ∧
    ∀ k : Nat, k ≤ lines.length →
      (Broadcast.consume (some k) (processStream lines b)).statuses =
        [false] := by
  constructor
  · rw [Broadcast.consume, consumeLoop_none]
  · intro k hk
    rw [Broadcast.consume,
      consumeLoop_cancel_stream b lines k 0 (Nat.zero_le k)
        (by simpa using hk)]

/-- C2 (witness): a one-line process that succeeds, consumed without
cancellation and consumed with cancellation pending from the first
suspension point. -/
theorem consume_single_outcome_witness :
    (Broadcast.consume none (processStream ["ln"] true)).statuses = [true] ∧
      (Broadcast.consume (some 1) (processStream ["ln"] true)).statuses =
        [false] :=
  ⟨(consume_single_outcome ["ln"] true).1,
   (consume_single_outcome ["ln"] true).2 1 (by decide)⟩

/-- C3: in watch mode (`is_once = false`), when the outcome receiver resolves
to `false` the trigger of a build Watchable emits exactly one error
notification, exactly one error log message and no info notification,
returns `Ok`, and passes the registration set through unchanged; when the
outcome resolves to `true` it emits exactly one info notification and no
error messages. -/
theorem build_trigger_emissions (target : String) (args : List String)
    (outcome : Option Bool) (regs : List String) :
    (outcome = some false →
      ∃ ems, BuildRequest.trigger false target args outcome regs =
          .ok (ems, regs) ∧
        ems.countP (fun m => m.isNotifyError) = 1 ∧
        ems.countP (fun m => m.isLogError) = 1 ∧
        ems.countP (fun m => m.isNotifyInfo) = 0) ∧
    (outcome = some true →
      ∃ ems, BuildRequest.trigger false target args outcome regs =
          .ok (ems, regs) ∧
        ems.countP (fun m => m.isNotifyInfo) = 1 ∧
        ems.countP (fun m => m.isNotifyError) = 0 ∧
        ems.countP (fun m => m.isLogError) = 0) := by
  constructor
  · rintro rfl
    refine ⟨_, rfl, ?_⟩
    simp [List.countP_cons, Emission.isNotifyError, Emission.isLogError,
      Emission.isNotifyInfo]
  · rintro rfl
    refine ⟨_, rfl, ?_⟩
    simp [List.countP_cons, Emission.isNotifyError, Emission.isLogError,
      Emission.isNotifyInfo]

/-- C3 (witness): concrete failing and succeeding watch-mode triggers. -/
theorem build_trigger_emissions_witness :
    (∃ ems, BuildRequest.trigger false "App" ["-scheme", "App"] (some false)
        ["reg"] = .ok (ems, ["reg"]) ∧
      ems.countP (fun m => m.isNotifyError) = 1 ∧
      ems.countP (fun m => m.isLogError) = 1 ∧
      ems.countP (fun m => m.isNotifyInfo) = 0) ∧
    (∃ ems, BuildRequest.trigger false "App" ["-scheme", "App"] (some true)
        ["reg"] = .ok (ems, ["reg"]) ∧
      ems.countP (fun m => m.isNotifyInfo) = 1 ∧
      ems.countP (fun m => m.isNotifyError) = 0 ∧
      ems.countP (fun m => m.isLogError) = 0) :=
  ⟨(build_trigger_emissions "App" ["-scheme", "App"] (some false) ["reg"]).1
      rfl,
   (build_trigger_emissions "App" ["-scheme", "App"] (some true) ["reg"]).2
      rfl⟩

/-- C4: `should_trigger` on a build Watchable returns true exactly when the
event is a content update, a rename, a create or a removal, or when the
event's path does not exist and the event has not already been seen. -/
theorem should_trigger_iff (e : Event) :
    BuildRequest.should_trigger e = true ↔
      (e.is_content_update_event = true ∨ e.is_rename_event = true ∨
       e.is_create_event = true ∨ e.is_remove_event = true ∨
       (e.path_exists = false ∧ e.is_seen = false)) := by
  rcases e with ⟨a, b, c, d, p, s⟩
  cases a <;> cases b <;> cases c <;> cases d <;> cases p <;> cases s <;>
    simp [BuildRequest.should_trigger]

/-- C5: `update_compile_database` writes the `.compile` file at the project
root if and only if the compile subprocess reports success: on success it
returns `Ok` and the file holds the pretty-printed database, on failure it
returns `Error::Build` and the filesystem is left unchanged. -/
theorem update_compile_database_iff (name root json sep : String)
    (fs : List (String × String)) (success : Bool) :
    ((update_compile_database name root success json sep fs).1.isOk = true ↔
      success = true) ∧
    (success = true →
      readFile (update_compile_database name root success json sep fs).2.1
        (root ++ "/.compile") = some json) ∧
    (success = false →
      (update_compile_database name root success json sep fs).1 =
        .error (DaemonError.build name) ∧
      (update_compile_database name root success json sep fs).2.1 = fs) := by
  cases success
  · simp [update_compile_database, Except.isOk, Except.toBool]
  · simp [update_compile_database, Except.isOk, Except.toBool, readFile,
      writeFile, List.find?]

/-- C5 (witness): concrete successful and failing updates. -/
theorem update_compile_database_iff_witness :
    readFile (update_compile_database "App" "/proj" true "[]" "---"
        []).2.1 ("/proj" ++ "/.compile") = some "[]" ∧
      (update_compile_database "App" "/proj" false "[]" "---" []).1 =
        .error (DaemonError.build "App") :=
  ⟨(update_compile_database_iff "App" "/proj" "[]" "---" [] true).2.1 rfl,
   ((update_compile_database_iff "App" "/proj" "[]" "---" [] false).2.2
      rfl).1⟩

/-- C6: the compile-log parser applied to the worked example yields exactly
one CompileCommand, whose source file is `/src/a.swift` and whose index-store
path is `/tmp/idx`. -/
theorem from_logs_example :
    ∃ c : CompileCommand,
      (CompileCommands.from_logs
        ["=== BUILD TARGET App ===", "=== COMPILE /src/a.swift ===",
         "<index-store-path> /tmp/idx", "/src/a.swift"]).commands = [c] ∧
      c.files = ["/src/a.swift"] ∧ c.index_store_path = some "/tmp/idx" :=
  ⟨⟨["/src/a.swift"], ["<index-store-path> /tmp/idx", "/src/a.swift"],
    some "/tmp/idx"⟩, by decide⟩

/-- C7: an input containing no line that both starts with the block marker
and matches the swift-module pattern parses to an empty command sequence, and
in general the parsed commands are exactly the in-order scan of the input:
recognized blocks contribute entries in the order they appear. -/
theorem from_logs_empty_and_ordered :
    (∀ lines : List String,
      (∀ l ∈ lines, ¬(strStartsWith l "===" = true ∧
          matches_compile_swift_sources l = true)) →
      CompileCommands.from_logs lines = ⟨[]⟩) ∧
    (∀ lines : List String,
      (CompileCommands.from_logs lines).commands =
        lines.enum.filterMap (fun p =>
          if strStartsWith p.2 "===" && matches_compile_swift_sources p.2 then
            CompileCommand.swift_module lines (p.1 + 1)
          else none)) := by
  constructor
  · intro lines h
    have hcmd : (CompileCommands.from_logs lines).commands = [] := by
      show CompileCommands.fromLogsAux lines lines 0 = []
      rw [fromLogsAux_eq_enumFrom]
      rw [List.filterMap_eq_nil_iff]
      intro p hp
      have hmem : p.2 ∈ lines := snd_mem_of_mem_enumFrom lines 0 p hp
      have hfalse : (strStartsWith p.2 "===" &&
          matches_compile_swift_sources p.2) = false := by
        cases hs : strStartsWith p.2 "==="
        · simp
        · cases hm : matches_compile_swift_sources p.2
          · simp
          · exact absurd ⟨hs, hm⟩ (h p.2 hmem)
      rw [hfalse]
      rfl
    cases hfl : CompileCommands.from_logs lines
    rw [hfl] at hcmd
    simpa using hcmd
  · intro lines
    show CompileCommands.fromLogsAux lines lines 0 = _
    rw [fromLogsAux_eq_enumFrom]
    rfl

/-- C7 (witness): a log with non-compile content and an unrecognized block
marker parses to the empty command sequence. -/
theorem from_logs_empty_witness :
    CompileCommands.from_logs
      ["Ld /tmp/app normal", "=== BUILD TARGET App ==="] = ⟨[]⟩ :=
  from_logs_empty_and_ordered.1
    ["Ld /tmp/app normal", "=== BUILD TARGET App ==="] (by decide)

/-- C8: when the hub's cancellation signal becomes pending while the consumed
subprocess is still streaming output, the consume task notifies the
subprocess's aborter and the outcome receiver resolves to `false`. -/
theorem consume_cancel_aborts (lines : List String) (b : Bool) (k : Nat)
    (hk : k ≤ lines.length) :
    (Broadcast.consume (some k) (processStream lines b)).aborted = true ∧
      (Broadcast.consume (some k) (processStream lines b)).statuses =
        [false] := by
  rw [Broadcast.consume,
    consumeLoop_cancel_stream b lines k 0 (Nat.zero_le k) (by simpa using hk)]
  exact ⟨rfl, rfl⟩

/-- C8 (witness): a two-line stream cancelled before its first suspension
point. -/
theorem consume_cancel_aborts_witness :
    (Broadcast.consume (some 0) (processStream ["o1", "o2"] true)).aborted =
        true ∧
      (Broadcast.consume (some 0)
        (processStream ["o1", "o2"] true)).statuses = [false] :=
  consume_cancel_aborts ["o1", "o2"] true 0 (by decide)

/-- C9: when the hub's abort signal fires, the accept loop removes the hub's
socket file, and `Broadcast::new` succeeds on any filesystem — in particular
on the one left by the accept loop — because it removes any stale endpoint at
the derived address before binding. -/
theorem broadcast_close_reopen (root : String) (fs : List String) :
    Broadcast.socketAddress root ∉
        Broadcast.serverOnAbort (Broadcast.socketAddress root) fs ∧
      (Broadcast.new root
        (Broadcast.serverOnAbort (Broadcast.socketAddress root) fs)).isOk =
          true ∧
      ∀ gs : List String, (Broadcast.new root gs).isOk = true := by
  have hnew : ∀ gs : List String, (Broadcast.new root gs).isOk = true := by
    intro gs
    set a := Broadcast.socketAddress root with ha
    have hnm : a ∉ (if a ∈ gs then removeFile gs a else gs) := by
      by_cases h : a ∈ gs <;>
        simp [h, removeFile, List.mem_filter]
    rw [Broadcast.new, bindSocket]
    rw [← ha, if_neg hnm]
    rfl
  refine ⟨?_, hnew _, hnew⟩
  simp [Broadcast.serverOnAbort, removeFile, List.mem_filter]

/-- C10: `Response::new` populates exactly one of the two fields: on `Ok` the
data field is the serialized payload and the error field is `None`, on `Err`
the error field is the error and the data field is `None`; the two fields are
never both set and never both unset. -/
theorem response_new_exclusive :
    ∀ {T V E : Type} (f : T → V) (v : Except E T),
      ((Response.new f v).data.isSome = !(Response.new f v).error.isSome) ∧
      (∀ d : T, (Response.new f (Except.ok d) : Response V E).data =
          some (f d) ∧
        (Response.new f (Except.ok d) : Response V E).error = none) ∧
      (∀ e : E, (Response.new f (Except.error e) : Response V E).error =
          some e ∧
        (Response.new f (Except.error e) : Response V E).data = none) := by
  intro T V E f v
  refine ⟨?_, fun d => ⟨rfl, rfl⟩, fun e => ⟨rfl, rfl⟩⟩
  cases v <;> rfl
